import Mathlib

/-!
# Verification of the fitness-movement-analyzer exercise engine

Shallow embedding of `src/exercise_analyzer.py` (class `ExerciseAnalyzer`).
Angle values (Python floats holding degrees) are modelled as exact rationals
`ℚ`; a Python dict of joint angles becomes an association list
`List (String × ℚ)` with first-occurrence lookup (a dict has unique keys, and
`dictGet` returns the first binding, so the two agree on dict-like lists);
the `deque(maxlen=30)` history becomes a list that drops its oldest element
past 30 entries.  `int(x)` on a non-negative quotient is floor, i.e. `Nat`
division.
-/

/-- A frame of joint angles: Python `dict` joint-name ↦ angle in degrees. -/
abbrev AngleFrame := List (String × ℚ)

/-- Per-exercise configuration entry, one value of `self.exercise_patterns`.
Static exercises (plank) carry no down/up thresholds, hence `Option`. -/
structure Pattern where
  key_joints : List String
  static : Bool := false
  down_threshold : Option ℚ := none
  up_threshold : Option ℚ := none
  ideal_range : ℚ × ℚ
  form_checks : List String
deriving DecidableEq, Repr

/-- The mutable analyzer state (`__init__`). -/
structure AnalyzerState where
  exercise_count : Nat
  stage : Option String
  current_exercise : Option String
  angle_history : List AngleFrame
  feedback_messages : List String
deriving DecidableEq, Repr

/-- The state set up by `__init__`. -/
def initState : AnalyzerState :=
  { exercise_count := 0, stage := none, current_exercise := none,
    angle_history := [], feedback_messages := [] }

/-- The catalog `self.exercise_patterns`, in dict insertion order. -/
def exercise_patterns : List (String × Pattern) :=
  [ ("pushup",
      { key_joints := ["left_elbow", "right_elbow"],
        down_threshold := some 90, up_threshold := some 160,
        ideal_range := (70, 90),
        form_checks := ["back_straight", "full_range"] }),
    ("squat",
      { key_joints := ["left_knee", "right_knee"],
        down_threshold := some 90, up_threshold := some 160,
        ideal_range := (80, 100),
        form_checks := ["knees_aligned", "back_straight"] }),
    ("situp",
      { key_joints := ["left_hip", "right_hip"],
        down_threshold := some 150, up_threshold := some 70,
        ideal_range := (45, 70),
        form_checks := ["controlled_movement", "neck_neutral"] }),
    ("jumping_jack",
      { key_joints := ["left_shoulder", "right_shoulder"],
        down_threshold := some 30, up_threshold := some 150,
        ideal_range := (150, 180),
        form_checks := ["synchronized_movement"] }),
    ("lunge",
      { key_joints := ["left_knee", "right_knee"],
        down_threshold := some 90, up_threshold := some 160,
        ideal_range := (85, 95),
        form_checks := ["knee_alignment", "balance"] }),
    ("plank",
      { key_joints := ["left_hip", "right_hip"],
        static := true,
        ideal_range := (170, 180),
        form_checks := ["back_straight", "core_engaged"] }) ]

/-- Python dict lookup `angles[joint]` / membership `joint in angles`:
first binding of the key (a dict never holds a key twice). -/
def dictGet (joint : String) : AngleFrame → Option ℚ
  | [] => none
  | (k, v) :: rest => if k = joint then some v else dictGet joint rest

/-- The last `n` elements of a list (Python `lst[-n:]`). -/
def lastN (n : Nat) (l : List α) : List α := l.drop (l.length - n)

/-- Appending to `deque(maxlen=30)`: push right, evict oldest past 30. -/
def historyAppend (hist : List AngleFrame) (f : AngleFrame) : List AngleFrame :=
  let h := hist ++ [f]
  if 30 < h.length then h.drop (h.length - 30) else h

/-- Embeds `_check_static_position`: over the last 10 frames, every key joint
that is present must lie inside the ideal range of the pattern. -/
def check_static_position (hist : List AngleFrame) (pattern : Pattern) : Bool :=
  (lastN 10 hist).all fun angles =>
    pattern.key_joints.all fun joint =>
      match dictGet joint angles with
      | none => true
      | some angle =>
          decide (pattern.ideal_range.1 ≤ angle ∧ angle ≤ pattern.ideal_range.2)

/-- Embeds `_check_dynamic_movement`: over the last 15 frames, the present
readings of some key joint span a range greater than 40 degrees. -/
def check_dynamic_movement (hist : List AngleFrame) (pattern : Pattern) : Bool :=
  pattern.key_joints.any fun joint =>
    match (lastN 15 hist).filterMap (fun a => dictGet joint a) with
    | [] => false
    | x :: xs => decide (40 < (x :: xs).foldl max x - (x :: xs).foldl min x)

/-- Embeds `_matches_pattern`: dispatch on the `static` flag. -/
def matches_pattern (hist : List AngleFrame) (pattern : Pattern) : Bool :=
  if pattern.static then check_static_position hist pattern
  else check_dynamic_movement hist pattern

/-- The `for exercise, pattern in self.exercise_patterns.items()` loop of
`detect_exercise`: first catalog entry whose pattern matches. -/
def findMatch (hist : List AngleFrame) : Option String :=
  (exercise_patterns.find? fun ep => matches_pattern hist ep.2).map Prod.fst

/-- Embeds `detect_exercise(angles, landmarks)`: returns the updated state
with the returned label (`landmarks` is unused by the source). -/
def detect_exercise (s : AnalyzerState) (angles : AngleFrame) :
    AnalyzerState × String :=
  if angles.isEmpty then (s, "unknown")
  else
    let s1 := { s with angle_history := historyAppend s.angle_history angles }
    if s1.angle_history.length < 10 then
      (s1, s1.current_exercise.getD "unknown")
    else
      match findMatch s1.angle_history with
      | some exercise => ({ s1 with current_exercise := some exercise }, exercise)
      | none => (s1, s1.current_exercise.getD "unknown")

/-- The per-family state machine inside `count_repetitions`, applied once the
the angle of the first present key joint has been read. -/
def repStep (s : AnalyzerState) (exercise_type : String) (pattern : Pattern)
    (angle : ℚ) : AnalyzerState :=
  match pattern.down_threshold, pattern.up_threshold with
  | some dth, some uth =>
    if exercise_type = "pushup" ∨ exercise_type = "squat" ∨
        exercise_type = "lunge" then
      if angle < dth ∧ s.stage ≠ some "down" then { s with stage := some "down" }
      else if uth < angle ∧ s.stage = some "down" then
        { s with stage := some "up", exercise_count := s.exercise_count + 1 }
      else s
    else if exercise_type = "situp" then
      if dth < angle ∧ s.stage ≠ some "down" then { s with stage := some "down" }
      else if angle < uth ∧ s.stage = some "down" then
        { s with stage := some "up", exercise_count := s.exercise_count + 1 }
      else s
    else if exercise_type = "jumping_jack" then
      if angle < dth ∧ s.stage ≠ some "down" then { s with stage := some "down" }
      else if uth < angle ∧ s.stage = some "down" then
        { s with stage := some "up", exercise_count := s.exercise_count + 1 }
      else s
    else s
  | _, _ => s

/-- Embeds `count_repetitions(angles, exercise_type)`: updated state plus the
returned repetition count. -/
def count_repetitions (s : AnalyzerState) (angles : AngleFrame)
    (exercise_type : String) : AnalyzerState × Nat :=
  match exercise_patterns.find? (fun ep => ep.1 = exercise_type) |>.map Prod.snd with
  | none => (s, s.exercise_count)
  | some pattern =>
    if pattern.static then (s, s.exercise_count)
    else
      match pattern.key_joints.find? (fun j => (dictGet j angles).isSome) with
      | none => (s, s.exercise_count)
      | some joint =>
        match dictGet joint angles with
        | none => (s, s.exercise_count)
        | some angle =>
          let s1 := repStep s exercise_type pattern angle
          (s1, s1.exercise_count)

/-- Embeds `joint.replace("_", " ").title()`. -/
def jointDisplay (j : String) : String :=
  String.intercalate " " (((j.replace "_" " ").splitOn " ").map String.capitalize)

/-- Python `f"{angle:.0f}"`: the float printed with no decimals.  Modelled as
the nearest integer of the exact rational (ties are immaterial to any claim). -/
def fmt0 (a : ℚ) : String := toString (round a : ℤ)

/-- The pushup/squat too-shallow message
`f"Go deeper! {joint.replace("_", " ").title()} angle: {angle:.0f}\xb0"`. -/
def goDeeperMsg (joint : String) (angle : ℚ) : String :=
  "Go deeper! " ++ jointDisplay joint ++ " angle: " ++ fmt0 angle ++ "°"

/-- Embeds `evaluate_form(angles, exercise_type)`: the feedback list (the source
mutates no analyzer state here). -/
def evaluate_form (s : AnalyzerState) (angles : AngleFrame)
    (exercise_type : String) : List String :=
  match exercise_patterns.find? (fun ep => ep.1 = exercise_type) |>.map Prod.snd with
  | none => []
  | some pattern =>
    let ideal_min := pattern.ideal_range.1
    let ideal_max := pattern.ideal_range.2
    let fb1 := pattern.key_joints.foldl (fun feedback joint =>
      match dictGet joint angles with
      | none => feedback
      | some angle =>
        if s.stage = some "down" then
          if exercise_type = "pushup" ∨ exercise_type = "squat" then
            if ideal_max < angle then
              feedback ++ [goDeeperMsg joint angle]
            else if angle < ideal_min then
              feedback ++ ["Don\x27t go too low! Risk of injury."]
            else feedback
          else if exercise_type = "situp" then
            if angle < ideal_min then
              feedback ++
                ["Come up higher! Target: " ++ toString ideal_min ++ "°"]
            else feedback
          else feedback
        else feedback) []
    let fb2 :=
      if "back_straight" ∈ pattern.form_checks then
        match dictGet "left_hip" angles, dictGet "right_hip" angles with
        | some lh, some rh =>
          let hip_avg := (lh + rh) / 2
          if exercise_type = "pushup" ∧ hip_avg < 160 then
            ["Keep your back straight!"]
          else if exercise_type = "plank" ∧ hip_avg < 170 then
            ["Don\x27t let your hips sag!"]
          else []
        | _, _ => []
      else []
    let fb3 :=
      if "knees_aligned" ∈ pattern.form_checks then
        match dictGet "left_knee" angles, dictGet "right_knee" angles with
        | some lk, some rk =>
          if 15 < |lk - rk| then ["Keep knees aligned!"] else []
        | _, _ => []
      else []
    fb1 ++ fb2 ++ fb3

/-- The comparisons one consecutive frame pair contributes to
`_calculate_quality_score`, as absolute angle deltas: for each joint of the
current frame also present in the previous one, `|cur[j] - prev[j]|`; the pair
is skipped when either dict is empty. -/
def pairDeltas (prev cur : AngleFrame) : List ℚ :=
  if prev.isEmpty ∨ cur.isEmpty then []
  else (cur.map Prod.fst).filterMap fun joint =>
    match dictGet joint prev, dictGet joint cur with
    | some pv, some cv => some |cv - pv|
    | _, _ => none

/-- Classifies `1 < change < 20` as consistent (1), else inconsistent (0). -/
def classifyDelta (d : ℚ) : Nat := if 1 < d ∧ d < 20 then 1 else 0

/-- All absolute angle deltas collected over the last 10 frames. -/
def deltasOf (hist : List AngleFrame) : List ℚ :=
  let recent := lastN 10 hist
  ((recent.zip recent.tail).map fun pc => pairDeltas pc.1 pc.2).flatten

/-- The `consistency_scores` list of `_calculate_quality_score`. -/
def scoresOf (hist : List AngleFrame) : List Nat :=
  (deltasOf hist).map classifyDelta

/-- Embeds `_calculate_quality_score`: Python
`int(sum(consistency_scores) / len(consistency_scores) * 100)`; on this
non-negative exact quotient `int` is floor, i.e. `Nat` division. -/
def calculate_quality_score (hist : List AngleFrame) : Nat :=
  if hist.length < 10 then 0
  else
    let scores := scoresOf hist
    if scores.isEmpty then 0
    else 100 * scores.sum / scores.length

/-- The dict returned by `get_performance_summary`. -/
structure PerformanceSummary where
  exercise : Option String
  repetitions : Nat
  current_stage : Option String
  quality_score : Nat
deriving DecidableEq, Repr

/-- Embeds `get_performance_summary()`. -/
def get_performance_summary (s : AnalyzerState) : PerformanceSummary :=
  { exercise := s.current_exercise,
    repetitions := s.exercise_count,
    current_stage := s.stage,
    quality_score := calculate_quality_score s.angle_history }

/-- Embeds `reset()`. -/
def reset (_ : AnalyzerState) : AnalyzerState := initState

/-- The public analyzer operations, for stating whole-session invariants. -/
inductive Op
  | detect (angles : AngleFrame)
  | countReps (angles : AngleFrame) (exercise_type : String)
  | evalForm (angles : AngleFrame) (exercise_type : String)
  | summary
  | resetOp
deriving DecidableEq, Repr

/-- State effect of one operation (`evaluate_form` and
`get_performance_summary` mutate nothing). -/
def stepOp (s : AnalyzerState) : Op → AnalyzerState
  | .detect angles => (detect_exercise s angles).1
  | .countReps angles exercise_type => (count_repetitions s angles exercise_type).1
  | .evalForm _ _ => s
  | .summary => s
  | .resetOp => reset s

/-- Run a sequence of operations. -/
def runOps (s : AnalyzerState) (ops : List Op) : AnalyzerState :=
  ops.foldl stepOp s

/-- Modelled from the spec for comparison with the code: the quality score with
the round wording `round(100 × consistent_count / total_comparisons)` in place of the
code truncation by `int(...)` (everything else as in `_calculate_quality_score`). -/
def quality_score_spec_round (hist : List AngleFrame) : ℤ :=
  if hist.length < 10 then 0
  else
    let scores := scoresOf hist
    if scores.isEmpty then 0
    else round ((100 * (scores.sum : ℚ)) / scores.length)

/-- Concrete history refuting the round claim: joint `a` moves by
10° five times then stays still, giving 5 consistent of 9 comparisons:
the code truncates 100·5/9 to 55 where `round` gives 56. -/
def qcHist : List AngleFrame :=
  [[("a", 0)], [("a", 10)], [("a", 20)], [("a", 30)], [("a", 40)],
   [("a", 50)], [("a", 50)], [("a", 50)], [("a", 50)], [("a", 50)]]

/-- Concrete history whose 9 deltas are all 10°, i.e. uniformly in (1, 20). -/
def qcHistSmooth : List AngleFrame :=
  [[("a", 0)], [("a", 10)], [("a", 20)], [("a", 30)], [("a", 40)],
   [("a", 50)], [("a", 60)], [("a", 70)], [("a", 80)], [("a", 90)]]

/-- The analyzer state holding `qcHistSmooth` as its history. -/
def qcState : AnalyzerState :=
  { exercise_count := 0, stage := none, current_exercise := none,
    angle_history := qcHistSmooth, feedback_messages := [] }

/-- The oscillation scenario: pushup angles 95, 85, 95, 85 around the
down-threshold 90 without ever crossing the up-threshold 160. -/
def oscOps : List Op :=
  [Op.countReps [("left_elbow", 95)] "pushup",
   Op.countReps [("left_elbow", 85)] "pushup",
   Op.countReps [("left_elbow", 95)] "pushup",
   Op.countReps [("left_elbow", 85)] "pushup"]

/-- The exercise names of the catalog, in order. -/
def catalogNames : List String := exercise_patterns.map Prod.fst

/-- Invariant: `current_exercise` is `None` or a catalog exercise name. -/
def goodCE (s : AnalyzerState) : Prop :=
  s.current_exercise = none ∨ ∃ n ∈ catalogNames, s.current_exercise = some n

/-- Nine hip-free frames of a constant elbow angle, about to receive a 10th. -/
def s9w : AnalyzerState :=
  { exercise_count := 0, stage := none, current_exercise := none,
    angle_history := List.replicate 9 [("left_elbow", (100 : ℚ))],
    feedback_messages := [] }

/-! ## Helper lemmas -/

theorem detect_exercise_count (s : AnalyzerState) (angles : AngleFrame) :
    (detect_exercise s angles).1.exercise_count = s.exercise_count := by
  unfold detect_exercise
  split
  · rfl
  · dsimp only
    split
    · rfl
    · split <;> rfl

theorem detect_exercise_stage (s : AnalyzerState) (angles : AngleFrame) :
    (detect_exercise s angles).1.stage = s.stage := by
  unfold detect_exercise
  split
  · rfl
  · dsimp only
    split
    · rfl
    · split <;> rfl

theorem repStep_cases (s : AnalyzerState) (exercise_type : String)
    (pattern : Pattern) (angle : ℚ) :
    repStep s exercise_type pattern angle = s ∨
    repStep s exercise_type pattern angle = { s with stage := some "down" } ∨
    (s.stage = some "down" ∧
      repStep s exercise_type pattern angle =
        { s with stage := some "up", exercise_count := s.exercise_count + 1 }) := by
  unfold repStep
  rcases pattern.down_threshold with _ | dth
  · left; rfl
  rcases pattern.up_threshold with _ | uth
  · left; rfl
  dsimp only
  split_ifs <;>
    first
      | exact Or.inl rfl
      | exact Or.inr (Or.inl rfl)
      | exact Or.inr (Or.inr ⟨(‹_ ∧ s.stage = some "down"›).2, rfl⟩)

theorem count_repetitions_cases (s : AnalyzerState) (angles : AngleFrame)
    (exercise_type : String) :
    ((count_repetitions s angles exercise_type).1 = s ∨
      (count_repetitions s angles exercise_type).1 = { s with stage := some "down" } ∨
      (s.stage = some "down" ∧
        (count_repetitions s angles exercise_type).1 =
          { s with stage := some "up",
                   exercise_count := s.exercise_count + 1 })) ∧
    (count_repetitions s angles exercise_type).2 =
      (count_repetitions s angles exercise_type).1.exercise_count := by
  unfold count_repetitions
  split
  · exact ⟨Or.inl rfl, rfl⟩
  split
  · exact ⟨Or.inl rfl, rfl⟩
  split
  · exact ⟨Or.inl rfl, rfl⟩
  split
  · exact ⟨Or.inl rfl, rfl⟩
  · exact ⟨repStep_cases _ _ _ _, rfl⟩

theorem count_repetitions_le (s : AnalyzerState) (angles : AngleFrame)
    (exercise_type : String) :
    s.exercise_count ≤ (count_repetitions s angles exercise_type).1.exercise_count := by
  rcases (count_repetitions_cases s angles exercise_type).1 with h | h | ⟨_, h⟩ <;>
    simp [h]

theorem stepOp_count_le (s : AnalyzerState) (op : Op) (hop : op ≠ Op.resetOp) :
    s.exercise_count ≤ (stepOp s op).exercise_count := by
  cases op with
  | detect angles => exact (detect_exercise_count s angles).ge
  | countReps angles exercise_type => exact count_repetitions_le s angles exercise_type
  | evalForm angles exercise_type => exact le_refl _
  | summary => exact le_refl _
  | resetOp => exact absurd rfl hop

theorem runOps_count_le (ops : List Op) (hops : Op.resetOp ∉ ops)
    (s : AnalyzerState) :
    s.exercise_count ≤ (runOps s ops).exercise_count := by
  induction ops generalizing s with
  | nil => exact le_refl _
  | cons op rest ih =>
    rw [List.mem_cons, not_or] at hops
    exact le_trans (stepOp_count_le s op (fun h => hops.1 h.symm))
      (ih hops.2 (stepOp s op))

theorem scoresOf_mem_le_one (hist : List AngleFrame) :
    ∀ x ∈ scoresOf hist, x ≤ 1 := by
  intro x hx
  rcases List.mem_map.mp hx with ⟨d, _, rfl⟩
  unfold classifyDelta
  split <;> omega

theorem quality_score_eq_div (hist : List AngleFrame)
    (h : ¬ hist.length < 10) :
    calculate_quality_score hist =
      100 * (scoresOf hist).sum / (scoresOf hist).length := by
  unfold calculate_quality_score
  rw [if_neg h]
  by_cases he : (scoresOf hist).isEmpty
  · rw [List.isEmpty_iff] at he
    simp [he]
  · simp only [he, Bool.false_eq_true, if_false]

theorem quality_score_le_100 (hist : List AngleFrame) :
    calculate_quality_score hist ≤ 100 := by
  unfold calculate_quality_score
  split
  · omega
  dsimp only
  split
  · omega
  · have hsum : (scoresOf hist).sum ≤ (scoresOf hist).length := by
      calc (scoresOf hist).sum ≤ (scoresOf hist).length * 1 :=
            List.sum_le_card_nsmul _ 1 (scoresOf_mem_le_one hist)
      _ = (scoresOf hist).length := by ring
    rcases Nat.eq_zero_or_pos (scoresOf hist).length with h0 | h0
    · simp [h0]
    · calc 100 * (scoresOf hist).sum / (scoresOf hist).length
          ≤ 100 * (scoresOf hist).length / (scoresOf hist).length :=
            Nat.div_le_div_right (Nat.mul_le_mul_left 100 hsum)
      _ = 100 := Nat.mul_div_cancel 100 h0

theorem scoresOf_length (hist : List AngleFrame) :
    (scoresOf hist).length = (deltasOf hist).length := List.length_map _ _

theorem quality_score_all_static (hist : List AngleFrame)
    (h : ∀ d ∈ deltasOf hist, d = 0) :
    calculate_quality_score hist = 0 := by
  unfold calculate_quality_score
  split
  · rfl
  dsimp only
  split
  · rfl
  · have hz : ∀ x ∈ scoresOf hist, x = 0 := by
      intro x hx
      rcases List.mem_map.mp hx with ⟨d, hd, rfl⟩
      have : d = 0 := h d hd
      subst this
      norm_num [classifyDelta]
    rw [List.sum_eq_zero hz]
    simp

theorem quality_score_all_consistent (hist : List AngleFrame)
    (h10 : ¬ hist.length < 10) (hne : deltasOf hist ≠ [])
    (h : ∀ d ∈ deltasOf hist, 1 < d ∧ d < 20) :
    calculate_quality_score hist = 100 := by
  have hone : ∀ x ∈ scoresOf hist, x = 1 := by
    intro x hx
    rcases List.mem_map.mp hx with ⟨d, hd, rfl⟩
    simp [classifyDelta, h d hd]
  have hsum : (scoresOf hist).sum = (scoresOf hist).length := by
    rw [List.eq_replicate_of_mem hone]
    simp
  have hlen : (scoresOf hist).length ≠ 0 := by
    rw [scoresOf_length]
    intro h0
    exact hne (List.length_eq_zero.mp h0)
  rw [quality_score_eq_div hist h10, hsum,
    Nat.mul_div_cancel 100 (Nat.pos_of_ne_zero hlen)]

/-- C1 counterexample: on `qcHist` the quality score of the code is 55 while the
claimed `round(100 × consistent / total)` is 56, so the claimed equation
fails on this reachable history. -/
theorem C1_round_counterexample :
    calculate_quality_score qcHist = 55 ∧
    quality_score_spec_round qcHist = 56 ∧
    (calculate_quality_score qcHist : ℤ) ≠ quality_score_spec_round qcHist := by
  refine ⟨?_, ?_, ?_⟩
  · norm_num [calculate_quality_score, scoresOf, deltasOf, pairDeltas, lastN,
      qcHist, dictGet, classifyDelta, List.filterMap]
  · norm_num [quality_score_spec_round, scoresOf, deltasOf, pairDeltas, lastN,
      qcHist, dictGet, classifyDelta, List.filterMap, round_eq]
  · norm_num [calculate_quality_score, quality_score_spec_round, scoresOf,
      deltasOf, pairDeltas, lastN, qcHist, dictGet, classifyDelta,
      List.filterMap, round_eq]

/-- C1 (amended): the quality score of `get_performance_summary` equals the
TRUNCATED `⌊100 × consistent_count / total_comparisons⌋` (Python `int`, not
`round`), over the last 10 frames with a comparison consistent exactly when
the absolute delta is strictly between 1 and 20; it is 0 for histories of
fewer than 10 frames, otherwise lies in [0, 100]; an all-static sequence
(every delta 0) scores 0 and a sequence with all deltas in (1, 20), with at
least one comparison, scores 100. -/
theorem C1_quality_score_truncated (s : AnalyzerState) :
    (get_performance_summary s).quality_score
        = calculate_quality_score s.angle_history
    ∧ (s.angle_history.length < 10 →
        calculate_quality_score s.angle_history = 0)
    ∧ (10 ≤ s.angle_history.length →
        calculate_quality_score s.angle_history
          = 100 * (scoresOf s.angle_history).sum / (scoresOf s.angle_history).length)
    ∧ calculate_quality_score s.angle_history ≤ 100
    ∧ ((∀ d ∈ deltasOf s.angle_history, d = 0) →
        calculate_quality_score s.angle_history = 0)
    ∧ (10 ≤ s.angle_history.length → deltasOf s.angle_history ≠ [] →
        (∀ d ∈ deltasOf s.angle_history, 1 < d ∧ d < 20) →
        calculate_quality_score s.angle_history = 100) := by
  refine ⟨rfl, ?_, ?_, quality_score_le_100 _, quality_score_all_static _, ?_⟩
  · intro h
    unfold calculate_quality_score
    rw [if_pos h]
  · intro h
    exact quality_score_eq_div _ (by omega)
  · intro h hne hall
    exact quality_score_all_consistent _ (by omega) hne hall

/-- Witness for the amended C1 theorem at the concrete smooth history. -/
theorem C1_quality_score_truncated_witness :
    calculate_quality_score qcHistSmooth = 100 := by
  have hdel : deltasOf qcHistSmooth = [10, 10, 10, 10, 10, 10, 10, 10, 10] := by
    norm_num [deltasOf, pairDeltas, lastN, qcHistSmooth, dictGet, List.filterMap,
      Function.comp]
  have h := (C1_quality_score_truncated qcState).2.2.2.2.2
  refine h ?_ ?_ ?_
  · norm_num [qcState, qcHistSmooth]
  · show deltasOf qcHistSmooth ≠ []
    rw [hdel]
    simp
  · show ∀ d ∈ deltasOf qcHistSmooth, 1 < d ∧ d < 20
    intro d hd
    rw [hdel] at hd
    simp only [List.mem_cons, List.not_mem_nil, or_false] at hd
    have hd10 : d = 10 := by tauto
    subst hd10
    norm_num

/-- C2: between resets `exercise_count` is monotonically non-decreasing over
any operation sequence, only `count_repetitions` changes it, by exactly 1 and
exactly on a down→up stage transition; the oscillation [95, 85, 95, 85] with
thresholds 90/160 counts 0 repetitions. -/
theorem C2_count_monotone (s : AnalyzerState) (ops : List Op)
    (angles : AngleFrame) (exercise_type : String) :
    (Op.resetOp ∉ ops → s.exercise_count ≤ (runOps s ops).exercise_count)
  ∧ (stepOp s (Op.detect angles)).exercise_count = s.exercise_count
  ∧ (stepOp s (Op.evalForm angles exercise_type)).exercise_count = s.exercise_count
  ∧ (stepOp s Op.summary).exercise_count = s.exercise_count
  ∧ ((count_repetitions s angles exercise_type).1.exercise_count = s.exercise_count ∨
      (count_repetitions s angles exercise_type).1.exercise_count = s.exercise_count + 1)
  ∧ ((count_repetitions s angles exercise_type).1.exercise_count = s.exercise_count + 1 ↔
      s.stage = some "down" ∧
        (count_repetitions s angles exercise_type).1.stage = some "up")
  ∧ (runOps initState oscOps).exercise_count = 0 := by
  refine ⟨fun h => runOps_count_le ops h s, detect_exercise_count s angles, rfl, rfl,
    ?_, ?_, by decide⟩
  · rcases (count_repetitions_cases s angles exercise_type).1 with h | h | ⟨_, h⟩ <;>
      simp [h]
  · rcases (count_repetitions_cases s angles exercise_type).1 with h | h | ⟨hd, h⟩
    · constructor
      · intro h1
        simp [h] at h1
      · rintro ⟨h1, h2⟩
        simp [h, h1] at h2
    · constructor
      · intro h1
        simp [h] at h1
      · rintro ⟨-, h2⟩
        simp [h] at h2
    · exact ⟨fun _ => ⟨hd, by simp [h]⟩, fun _ => by simp [h]⟩

/-- Witness for C2 at the oscillation scenario. -/
theorem C2_count_monotone_witness :
    initState.exercise_count ≤ (runOps initState oscOps).exercise_count ∧
    (runOps initState oscOps).exercise_count = 0 :=
  ⟨(C2_count_monotone initState oscOps [] "pushup").1 (by decide),
   (C2_count_monotone initState oscOps [] "pushup").2.2.2.2.2.2⟩

/-- The situp catalog entry, as `count_repetitions` looks it up. -/
theorem situp_pattern_lookup :
    (exercise_patterns.find? (fun ep => ep.1 = "situp") |>.map Prod.snd) =
      some { key_joints := ["left_hip", "right_hip"], static := false,
             down_threshold := some 150, up_threshold := some 70,
             ideal_range := (45, 70),
             form_checks := ["controlled_movement", "neck_neutral"] } := by rfl

/-- C3: for "situp" the state machine is inverted: angle strictly above the
down-threshold 150 (stage not already "down") enters "down"; angle strictly
below the up-threshold 70 while in "down" enters "up" and increments the
count by 1. -/
theorem C3_situp_inverted (s : AnalyzerState) (angles : AngleFrame)
    (joint : String) (angle : ℚ)
    (hfind : List.find? (fun j => (dictGet j angles).isSome)
        ["left_hip", "right_hip"] = some joint)
    (hget : dictGet joint angles = some angle) :
    (150 < angle ∧ s.stage ≠ some "down" →
      count_repetitions s angles "situp" =
        ({ s with stage := some "down" }, s.exercise_count))
  ∧ (angle < 70 ∧ s.stage = some "down" →
      count_repetitions s angles "situp" =
        ({ s with stage := some "up", exercise_count := s.exercise_count + 1 },
          s.exercise_count + 1)) := by
  have hbody : count_repetitions s angles "situp" =
      (repStep s "situp"
        { key_joints := ["left_hip", "right_hip"], static := false,
          down_threshold := some 150, up_threshold := some 70,
          ideal_range := (45, 70),
          form_checks := ["controlled_movement", "neck_neutral"] } angle,
        (repStep s "situp"
          { key_joints := ["left_hip", "right_hip"], static := false,
            down_threshold := some 150, up_threshold := some 70,
            ideal_range := (45, 70),
            form_checks := ["controlled_movement", "neck_neutral"] } angle).exercise_count) := by
    unfold count_repetitions
    rw [situp_pattern_lookup]
    simp only [Bool.false_eq_true, if_false, hfind, hget]
  constructor
  · rintro ⟨h1, h2⟩
    rw [hbody]
    unfold repStep
    dsimp only
    rw [if_neg (by decide), if_pos rfl, if_pos ⟨h1, h2⟩]
  · rintro ⟨h1, h2⟩
    rw [hbody]
    unfold repStep
    dsimp only
    rw [if_neg (by decide), if_pos rfl,
      if_neg (fun hc => hc.2 h2), if_pos ⟨h1, h2⟩]

/-- Witness for C3 at a concrete down-stage state and hip angle 60. -/
theorem C3_situp_inverted_witness :
    count_repetitions { initState with stage := some "down" }
        [("left_hip", (60 : ℚ))] "situp" =
      ({ initState with stage := some "up", exercise_count := 1 }, 1) := by
  have h := (C3_situp_inverted { initState with stage := some "down" }
      [("left_hip", (60 : ℚ))] "left_hip" 60 (by rfl) (by rfl)).2
  exact h ⟨by norm_num, rfl⟩

/-- C4: an empty angle frame makes `detect_exercise` return "unknown" and
leave the whole analyzer state (history included) untouched. -/
theorem C4_empty_frame_unknown (s : AnalyzerState) :
    detect_exercise s [] = (s, "unknown") := rfl

/-- C5: on a non-empty frame, while the post-append history still holds fewer
than 10 frames, `detect_exercise` returns the sticky `current_exercise` when
set and "unknown" otherwise, never a freshly matched label, and only the
history changes. -/
theorem C5_warmup_returns_sticky (s : AnalyzerState) (angles : AngleFrame)
    (h1 : angles ≠ [])
    (h2 : (historyAppend s.angle_history angles).length < 10) :
    detect_exercise s angles =
      ({ s with angle_history := historyAppend s.angle_history angles },
        s.current_exercise.getD "unknown") := by
  unfold detect_exercise
  rw [if_neg (by simpa using h1)]
  dsimp only
  rw [if_pos h2]

/-- Witness for C5 on the empty-history analyzer and a one-joint frame. -/
theorem C5_warmup_returns_sticky_witness :
    detect_exercise initState [("a", (1 : ℚ))] =
      ({ initState with angle_history := [[("a", (1 : ℚ))]] }, "unknown") := by
  have h := C5_warmup_returns_sticky initState [("a", (1 : ℚ))]
    (by simp) (by decide)
  simpa [historyAppend, initState] using h

theorem findMatch_mem_catalog (hist : List AngleFrame) (exercise : String)
    (h : findMatch hist = some exercise) : exercise ∈ catalogNames := by
  unfold findMatch at h
  rcases Option.map_eq_some'.mp h with ⟨ep, hep, rfl⟩
  exact List.mem_map_of_mem Prod.fst (List.mem_of_find?_eq_some hep)

theorem detect_exercise_current_cases (s : AnalyzerState) (angles : AngleFrame) :
    (detect_exercise s angles).1.current_exercise = s.current_exercise ∨
    ∃ n ∈ catalogNames, (detect_exercise s angles).1.current_exercise = some n := by
  unfold detect_exercise
  split
  · exact Or.inl rfl
  · dsimp only
    split
    · exact Or.inl rfl
    · split
      · rename_i exercise hmatch
        exact Or.inr ⟨exercise, findMatch_mem_catalog _ _ hmatch, rfl⟩
      · exact Or.inl rfl

theorem count_repetitions_current (s : AnalyzerState) (angles : AngleFrame)
    (exercise_type : String) :
    (count_repetitions s angles exercise_type).1.current_exercise =
      s.current_exercise := by
  rcases (count_repetitions_cases s angles exercise_type).1 with h | h | ⟨-, h⟩ <;>
    rw [h]

theorem stepOp_goodCE (s : AnalyzerState) (op : Op) (h : goodCE s) :
    goodCE (stepOp s op) := by
  cases op with
  | detect angles =>
    rcases detect_exercise_current_cases s angles with hc | ⟨n, hn, hc⟩
    · unfold goodCE
      rw [stepOp, hc]
      exact h
    · exact Or.inr ⟨n, hn, hc⟩
  | countReps angles exercise_type =>
    unfold goodCE
    rw [stepOp, count_repetitions_current]
    exact h
  | evalForm angles exercise_type => exact h
  | summary => exact h
  | resetOp => exact Or.inl rfl

/-- C6: in every reachable state `current_exercise` is `None` or one of the
six catalog names, never "unknown"; every operation either installs a
concretely matched catalog exercise or leaves the field unchanged, and when
no pattern matches, `detect_exercise` keeps it unchanged and returns the
sticky value or "unknown". -/
theorem C6_current_exercise_invariant (s : AnalyzerState) (op : Op)
    (ops : List Op) (angles : AngleFrame) :
    catalogNames = ["pushup", "squat", "situp", "jumping_jack", "lunge", "plank"]
  ∧ goodCE initState
  ∧ (goodCE s → goodCE (stepOp s op))
  ∧ goodCE (runOps initState ops)
  ∧ (goodCE s → s.current_exercise ≠ some "unknown")
  ∧ (angles ≠ [] → findMatch (historyAppend s.angle_history angles) = none →
      detect_exercise s angles =
        ({ s with angle_history := historyAppend s.angle_history angles },
          s.current_exercise.getD "unknown")) := by
  refine ⟨rfl, Or.inl rfl, stepOp_goodCE s op, ?_, ?_, ?_⟩
  · have : ∀ l t, goodCE t → goodCE (runOps t l) := by
      intro l
      induction l with
      | nil => exact fun t h => h
      | cons op rest ih => exact fun t h => ih (stepOp t op) (stepOp_goodCE t op h)
    exact this ops initState (Or.inl rfl)
  · rintro (h | ⟨n, hn, h⟩) hu
    · rw [h] at hu
      cases hu
    · rw [h] at hu
      obtain rfl := Option.some.inj hu
      revert hn
      decide
  · intro h1 h2
    unfold detect_exercise
    rw [if_neg (by simpa using h1)]
    dsimp only
    split
    · rfl
    · rw [h2]

/-- Witness for C6 at a concrete state and operation sequence: a lone hip
angle of 100° matches no pattern (the plank range check fails, nothing moves). -/
theorem C6_current_exercise_invariant_witness :
    goodCE (runOps initState oscOps) ∧
    detect_exercise initState [("left_hip", (100 : ℚ))] =
      ({ initState with angle_history := [[("left_hip", (100 : ℚ))]] },
        "unknown") := by
  constructor
  · exact (C6_current_exercise_invariant initState Op.summary oscOps []).2.2.2.1
  · have hfm : findMatch (historyAppend initState.angle_history
        [("left_hip", (100 : ℚ))]) = none := by
      norm_num [findMatch, exercise_patterns, matches_pattern,
        check_static_position, check_dynamic_movement, lastN, historyAppend,
        initState, dictGet, List.filterMap]
      simp only [String.reduceEq, if_false, ite_false, and_self]
    have h := (C6_current_exercise_invariant initState Op.summary []
      [("left_hip", (100 : ℚ))]).2.2.2.2.2 (by simp) hfm
    simpa [historyAppend, initState] using h

/-- C7: `count_repetitions` on a label outside the catalog, on a static
pattern, or with no key joint present, returns the current count and mutates
nothing; otherwise it reads only the first listed key joint present in the
frame — two frames agreeing on that joint give identical results. -/
theorem C7_count_repetitions_reads (s : AnalyzerState)
    (angles angles2 : AngleFrame) (exercise_type : String) (pattern : Pattern)
    (joint : String) :
    ((exercise_patterns.find? (fun ep => ep.1 = exercise_type) |>.map Prod.snd)
        = none →
      count_repetitions s angles exercise_type = (s, s.exercise_count))
  ∧ ((exercise_patterns.find? (fun ep => ep.1 = exercise_type) |>.map Prod.snd)
        = some pattern → pattern.static = true →
      count_repetitions s angles exercise_type = (s, s.exercise_count))
  ∧ ((exercise_patterns.find? (fun ep => ep.1 = exercise_type) |>.map Prod.snd)
        = some pattern →
      pattern.key_joints.find? (fun j => (dictGet j angles).isSome) = none →
      count_repetitions s angles exercise_type = (s, s.exercise_count))
  ∧ ((exercise_patterns.find? (fun ep => ep.1 = exercise_type) |>.map Prod.snd)
        = some pattern →
      pattern.key_joints.find? (fun j => (dictGet j angles).isSome) = some joint →
      pattern.key_joints.find? (fun j => (dictGet j angles2).isSome) = some joint →
      dictGet joint angles2 = dictGet joint angles →
      count_repetitions s angles2 exercise_type =
        count_repetitions s angles exercise_type) := by
  refine ⟨?_, ?_, ?_, ?_⟩
  · intro hp
    unfold count_repetitions
    rw [hp]
  · intro hp hs
    unfold count_repetitions
    rw [hp]
    dsimp only
    rw [if_pos hs]
  · intro hp hf
    unfold count_repetitions
    rw [hp]
    dsimp only
    cases hs : pattern.static
    · simp only [Bool.false_eq_true, if_false]
      rw [hf]
    · simp only [if_true]
  · intro hp hf1 hf2 heq
    unfold count_repetitions
    rw [hp]
    dsimp only
    cases hs : pattern.static
    · simp only [Bool.false_eq_true, if_false]
      rw [hf1, hf2]
      dsimp only
      rw [heq]
    · simp only [if_true]

/-- Witness for C7: unknown label "yoga" and the static "plank" pattern both
leave a concrete state untouched. -/
theorem C7_count_repetitions_reads_witness :
    count_repetitions initState [("left_hip", (100 : ℚ))] "yoga" =
        (initState, 0) ∧
    count_repetitions initState [("left_hip", (100 : ℚ))] "plank" =
        (initState, 0) := by
  constructor
  · exact (C7_count_repetitions_reads initState [("left_hip", (100 : ℚ))] []
      "yoga" { key_joints := [], ideal_range := (0, 0), form_checks := [] }
      "left_hip").1 (by rfl)
  · exact (C7_count_repetitions_reads initState [("left_hip", (100 : ℚ))] []
      "plank"
      { key_joints := ["left_hip", "right_hip"], static := true,
        ideal_range := (170, 180),
        form_checks := ["back_straight", "core_engaged"] }
      "left_hip").2.1 (by rfl) rfl

/-- A go-deeper message can never collide with the knee-alignment message. -/
theorem goDeeperMsg_ne_knees (joint : String) (angle : ℚ) :
    goDeeperMsg joint angle ≠ "Keep knees aligned!" := by
  intro h
  have h2 := congrArg String.data h
  simp only [goDeeperMsg, String.data_append] at h2
  simp at h2

/-- A fold that only ever appends non-target messages never contains the
target. -/
theorem mem_foldl_of_step (f : List String → String → List String) (target : String)
    (hf : ∀ acc j, f acc j = acc ∨ ∃ m, f acc j = acc ++ [m] ∧ m ≠ target)
    (joints : List String) (acc : List String)
    (hacc : target ∉ acc) : target ∉ List.foldl f acc joints := by
  induction joints generalizing acc with
  | nil => simpa using hacc
  | cons j rest ih =>
    rw [List.foldl_cons]
    apply ih
    rcases hf acc j with hstep | ⟨m, hstep, hm⟩
    · rw [hstep]
      exact hacc
    · rw [hstep]
      intro hmem
      rcases List.mem_append.mp hmem with h1 | h1
      · exact hacc h1
      · rw [List.mem_singleton] at h1
        subst h1
        exact hm rfl

/-- Squat is the only catalog pattern declaring the knees_aligned check. -/
theorem knees_aligned_only_squat (exercise_type : String) (pattern : Pattern)
    (hp : (exercise_patterns.find? (fun ep => ep.1 = exercise_type) |>.map Prod.snd)
        = some pattern)
    (hk : "knees_aligned" ∈ pattern.form_checks) :
    exercise_type = "squat" ∧
      pattern = { key_joints := ["left_knee", "right_knee"], static := false,
                  down_threshold := some 90, up_threshold := some 160,
                  ideal_range := (80, 100),
                  form_checks := ["knees_aligned", "back_straight"] } := by
  rcases Option.map_eq_some'.mp hp with ⟨ep, hfind, hsnd⟩
  have hname : ep.1 = exercise_type := by simpa using List.find?_some hfind
  have hmem : ep ∈ exercise_patterns := List.mem_of_find?_eq_some hfind
  subst hsnd
  simp only [exercise_patterns, List.mem_cons, List.not_mem_nil, or_false] at hmem
  rcases hmem with rfl | rfl | rfl | rfl | rfl | rfl
  · exact absurd hk (by decide)
  · exact ⟨hname.symm, rfl⟩
  · exact absurd hk (by decide)
  · exact absurd hk (by decide)
  · exact absurd hk (by decide)
  · exact absurd hk (by decide)

/-- C8: for every exercise whose pattern declares the knees_aligned form
check, with both knee angles present, `evaluate_form` emits
"Keep knees aligned!" exactly when the absolute knee-angle difference
exceeds 15 degrees. -/
theorem C8_knees_aligned_iff (s : AnalyzerState) (angles : AngleFrame)
    (exercise_type : String) (pattern : Pattern) (lk rk : ℚ)
    (hp : (exercise_patterns.find? (fun ep => ep.1 = exercise_type) |>.map Prod.snd)
        = some pattern)
    (hk : "knees_aligned" ∈ pattern.form_checks)
    (hl : dictGet "left_knee" angles = some lk)
    (hr : dictGet "right_knee" angles = some rk) :
    ("Keep knees aligned!" ∈ evaluate_form s angles exercise_type ↔
      15 < |lk - rk|) := by
  obtain ⟨rfl, rfl⟩ := knees_aligned_only_squat exercise_type pattern hp hk
  unfold evaluate_form
  rw [hp]
  dsimp only
  rw [hl, hr]
  dsimp only
  constructor
  · intro hmem
    rcases List.mem_append.mp hmem with h | h
    · exfalso
      rcases List.mem_append.mp h with hA | hB
      · refine mem_foldl_of_step _ _ ?_ _ _ (by simp) hA
        intro acc j
        dsimp only
        cases hdg : dictGet j angles with
        | none => exact Or.inl rfl
        | some angle =>
          dsimp only
          by_cases hst : s.stage = some "down"
          · rw [if_pos hst, if_pos (by decide)]
            split_ifs with h1 h2
            · exact Or.inr ⟨_, rfl, goDeeperMsg_ne_knees j angle⟩
            · exact Or.inr ⟨_, rfl, by decide⟩
            · exact Or.inl rfl
          · rw [if_neg hst]
            exact Or.inl rfl
      · rw [if_pos (show "back_straight" ∈ ["knees_aligned", "back_straight"]
          by decide)] at hB
        rcases hdl : dictGet "left_hip" angles with _ | lh
        · rw [hdl] at hB
          simp at hB
        · rcases hdr : dictGet "right_hip" angles with _ | rh
          · rw [hdl, hdr] at hB
            simp at hB
          · rw [hdl, hdr] at hB
            simp at hB
    · rw [if_pos (show "knees_aligned" ∈ ["knees_aligned", "back_straight"]
        by decide)] at h
      by_cases hc : 15 < |lk - rk|
      · exact hc
      · rw [if_neg hc] at h
        simp at h
  · intro hc
    refine List.mem_append_right _ ?_
    rw [if_pos (show "knees_aligned" ∈ ["knees_aligned", "back_straight"]
      by decide), if_pos hc]
    simp

/-- Witness for C8: left knee 100° with right knee 120° flags, with 105° it
does not. -/
theorem C8_knees_aligned_iff_witness :
    "Keep knees aligned!" ∈
      evaluate_form initState
        [("left_knee", (100 : ℚ)), ("right_knee", (120 : ℚ))] "squat" ∧
    "Keep knees aligned!" ∉
      evaluate_form initState
        [("left_knee", (100 : ℚ)), ("right_knee", (105 : ℚ))] "squat" := by
  constructor
  · exact (C8_knees_aligned_iff initState
      [("left_knee", (100 : ℚ)), ("right_knee", (120 : ℚ))] "squat" _ 100 120
      rfl (by decide) rfl rfl).mpr (by norm_num)
  · intro hmem
    have := (C8_knees_aligned_iff initState
      [("left_knee", (100 : ℚ)), ("right_knee", (105 : ℚ))] "squat" _ 100 105
      rfl (by decide) rfl rfl).mp hmem
    norm_num at this

/-- C9: with at least 10 frames none of whose last 10 contain either hip
joint, and no dynamic pattern moving beyond 40 degrees over the last 15
frames, `detect_exercise` classifies "plank" vacuously, with no hip data at
all. -/
theorem C9_plank_vacuous (s : AnalyzerState) (angles : AngleFrame)
    (h0 : angles ≠ [])
    (h1 : 10 ≤ (historyAppend s.angle_history angles).length)
    (h2 : ∀ f ∈ lastN 10 (historyAppend s.angle_history angles),
        dictGet "left_hip" f = none ∧ dictGet "right_hip" f = none)
    (h3 : ∀ ep ∈ exercise_patterns, ep.2.static = false →
        check_dynamic_movement (historyAppend s.angle_history angles) ep.2
          = false) :
    detect_exercise s angles =
      ({ s with angle_history := historyAppend s.angle_history angles,
                current_exercise := some "plank" }, "plank") := by
  have hd : ∀ ep ∈ exercise_patterns, ep.2.static = false →
      matches_pattern (historyAppend s.angle_history angles) ep.2 = false := by
    intro ep hmem hst
    unfold matches_pattern
    rw [hst]
    simp only [Bool.false_eq_true, if_false]
    exact h3 ep hmem hst
  have e1 := hd ("pushup",
    { key_joints := ["left_elbow", "right_elbow"],
      down_threshold := some 90, up_threshold := some 160,
      ideal_range := (70, 90),
      form_checks := ["back_straight", "full_range"] }) (by decide) rfl
  have e2 := hd ("squat",
    { key_joints := ["left_knee", "right_knee"],
      down_threshold := some 90, up_threshold := some 160,
      ideal_range := (80, 100),
      form_checks := ["knees_aligned", "back_straight"] }) (by decide) rfl
  have e3 := hd ("situp",
    { key_joints := ["left_hip", "right_hip"],
      down_threshold := some 150, up_threshold := some 70,
      ideal_range := (45, 70),
      form_checks := ["controlled_movement", "neck_neutral"] }) (by decide) rfl
  have e4 := hd ("jumping_jack",
    { key_joints := ["left_shoulder", "right_shoulder"],
      down_threshold := some 30, up_threshold := some 150,
      ideal_range := (150, 180),
      form_checks := ["synchronized_movement"] }) (by decide) rfl
  have e5 := hd ("lunge",
    { key_joints := ["left_knee", "right_knee"],
      down_threshold := some 90, up_threshold := some 160,
      ideal_range := (85, 95),
      form_checks := ["knee_alignment", "balance"] }) (by decide) rfl
  have hpl : matches_pattern (historyAppend s.angle_history angles)
      { key_joints := ["left_hip", "right_hip"], static := true,
        ideal_range := (170, 180),
        form_checks := ["back_straight", "core_engaged"] } = true := by
    unfold matches_pattern
    rw [if_pos rfl]
    unfold check_static_position
    apply List.all_eq_true.mpr
    intro f hf
    apply List.all_eq_true.mpr
    intro j hj
    rcases h2 f hf with ⟨hL, hR⟩
    simp only [List.mem_cons, List.not_mem_nil, or_false] at hj
    rcases hj with rfl | rfl
    · rw [hL]
    · rw [hR]
  have hfm : findMatch (historyAppend s.angle_history angles)
      = some "plank" := by
    unfold findMatch
    simp only [exercise_patterns]
    rw [List.find?_cons_of_neg _ (by simp [e1]),
        List.find?_cons_of_neg _ (by simp [e2]),
        List.find?_cons_of_neg _ (by simp [e3]),
        List.find?_cons_of_neg _ (by simp [e4]),
        List.find?_cons_of_neg _ (by simp [e5]),
        List.find?_cons_of_pos _ (by simp [hpl])]
    rfl
  unfold detect_exercise
  rw [if_neg (by simpa using h0)]
  dsimp only
  rw [if_neg (by omega), hfm]

/-- Witness for C9: ten constant hip-free elbow frames classify as "plank". -/
theorem C9_plank_vacuous_witness :
    detect_exercise s9w [("left_elbow", (100 : ℚ))] =
      ({ s9w with
          angle_history := List.replicate 10 [("left_elbow", (100 : ℚ))],
          current_exercise := some "plank" }, "plank") := by
  have happ : historyAppend s9w.angle_history [("left_elbow", (100 : ℚ))] =
      List.replicate 10 [("left_elbow", (100 : ℚ))] := by decide
  have h := C9_plank_vacuous s9w [("left_elbow", (100 : ℚ))]
    (by simp)
    (by rw [happ]; decide)
    (by rw [happ]; decide)
    (by
      intro ep hmem hst
      rw [happ]
      fin_cases hmem <;>
        norm_num [check_dynamic_movement, lastN, dictGet, List.filterMap,
          List.replicate, List.foldl] <;>
        simp_all)
  rw [h, happ]

/-- A frame pair with an empty side or no shared joint contributes no
comparison. -/
theorem pairDeltas_nil (prev cur : AngleFrame)
    (h : prev = [] ∨ cur = [] ∨ ∀ j ∈ cur.map Prod.fst, dictGet j prev = none) :
    pairDeltas prev cur = [] := by
  unfold pairDeltas
  rcases h with h | h | h
  · simp [h]
  · simp [h]
  · by_cases he : prev.isEmpty ∨ cur.isEmpty
    · rw [if_pos he]
    · rw [if_neg he]
      apply List.filterMap_eq_nil_iff.mpr
      intro j hj
      rw [h j hj]

/-- C10: `_calculate_quality_score` is total and never divides by zero: with
at least 10 frames but no consecutive pair of the last 10 sharing a joint
(or with empty frames), zero comparisons are collected and both the score
and the quality field of the summary are 0. -/
theorem C10_no_comparisons_score_zero (s : AnalyzerState)
    (h10 : 10 ≤ s.angle_history.length)
    (hnone : ∀ pc ∈ (lastN 10 s.angle_history).zip
        (lastN 10 s.angle_history).tail,
      pc.1 = [] ∨ pc.2 = [] ∨ ∀ j ∈ pc.2.map Prod.fst, dictGet j pc.1 = none) :
    scoresOf s.angle_history = [] ∧
    calculate_quality_score s.angle_history = 0 ∧
    (get_performance_summary s).quality_score = 0 := by
  have hdel : deltasOf s.angle_history = [] := by
    unfold deltasOf
    apply List.flatten_eq_nil_iff.mpr
    intro x hx
    rcases List.mem_map.mp hx with ⟨pc, hpc, rfl⟩
    exact pairDeltas_nil pc.1 pc.2 (hnone pc hpc)
  have hsc : scoresOf s.angle_history = [] := by
    unfold scoresOf
    rw [hdel]
    rfl
  refine ⟨hsc, ?_, ?_⟩
  · unfold calculate_quality_score
    rw [if_neg (by omega), hsc]
    rfl
  · show calculate_quality_score s.angle_history = 0
    unfold calculate_quality_score
    rw [if_neg (by omega), hsc]
    rfl

/-- Witness for C10: ten frames alternating between joints `a` and `b`, so no
consecutive pair shares a joint. -/
theorem C10_no_comparisons_score_zero_witness :
    calculate_quality_score
      [[("a", (1 : ℚ))], [("b", (1 : ℚ))], [("a", (1 : ℚ))], [("b", (1 : ℚ))],
       [("a", (1 : ℚ))], [("b", (1 : ℚ))], [("a", (1 : ℚ))], [("b", (1 : ℚ))],
       [("a", (1 : ℚ))], [("b", (1 : ℚ))]] = 0 := by
  have h := C10_no_comparisons_score_zero
    { exercise_count := 0, stage := none, current_exercise := none,
      angle_history :=
        [[("a", (1 : ℚ))], [("b", (1 : ℚ))], [("a", (1 : ℚ))], [("b", (1 : ℚ))],
         [("a", (1 : ℚ))], [("b", (1 : ℚ))], [("a", (1 : ℚ))], [("b", (1 : ℚ))],
         [("a", (1 : ℚ))], [("b", (1 : ℚ))]],
      feedback_messages := [] }
    (by decide) (by decide)
  exact h.2.1
